import Mathlib

/-!
Shallow embedding of the batch notification and fulfillment engine of the
blood-donation backend: the `BloodRequest` stored state, the donor
eligibility filter and `createBloodRequest`, the dispatcher `sendNextBatch`,
the confirmation operation `confirmDonation`, the public read
`getBloodRequestById`, and the scheduler tick `checkPendingBatches`
from `services/emailService.js`.  Timestamps are modelled as milliseconds
(`Int`), donor ids as `Nat`, and Mongo documents as Lean structures.
-/

/-- Stored state of a blood request document (schema
`models/BloodRequest.js` plus the fields the controller writes).
`quantity` is the number of units needed, `responseWindow` is in minutes. -/
structure BloodRequest where
  status : String
  quantity : Nat
  confirmedUnits : Nat
  requiredBy : Int
  batchSize : Nat
  responseWindow : Nat
  remainingDonorsQueue : List Nat
  notifiedDonors : List Nat
  batchSentAt : Option Int
  batchInProgress : Bool
deriving Repr, DecidableEq

/-- The `enum` list of the `status` field in the Mongoose schema
(`models/BloodRequest.js` lines 31-35). -/
def statusEnumValues : List String := ["pending", "fulfilled", "cancelled"]

/-- The `default` of the `status` field in the Mongoose schema. -/
def statusDefaultValue : String := "pending"

/-- Result reported by `confirmDonation` to the HTTP caller. -/
inductive ConfirmOutcome where
  | confirmed (message : String)
  | rejected (message : String)
deriving Repr, DecidableEq

/-- Whether an outcome is the success response. -/
def ConfirmOutcome.isSuccess : ConfirmOutcome → Bool
  | .confirmed _ => true
  | .rejected _ => false

/-- The match predicate of the atomic `findOneAndUpdate` in
`confirmDonation`: status is `active`, `confirmedUnits < quantity`,
and `requiredBy ≥ now`. -/
def confirmPredicate (now : Int) (r : BloodRequest) : Bool :=
  r.status == "active" && r.confirmedUnits < r.quantity && now ≤ r.requiredBy

/-- `confirmDonation` (controller, lines 240-279): one conditional
read-modify-write incrementing `confirmedUnits` when the predicate holds,
then the post-increment fulfillment check; on no match, a 400 with the
domain-error message and no state change. -/
def confirmDonation (now : Int) (r : BloodRequest) : ConfirmOutcome × BloodRequest :=
  if confirmPredicate now r then
    let updated : BloodRequest := { r with confirmedUnits := r.confirmedUnits + 1 }
    let updated2 : BloodRequest :=
      if updated.quantity ≤ updated.confirmedUnits then { updated with status := "fulfilled" }
      else updated
    (ConfirmOutcome.confirmed "Donation confirmed successfully.", updated2)
  else
    (ConfirmOutcome.rejected "Blood request already fulfilled or expired.", r)

/-- Folding a sequence of `confirmDonation` calls (one `now` timestamp per
call) over a request, returning the final stored state. -/
def confirmRun (r : BloodRequest) (times : List Int) : BloodRequest :=
  match times with
  | [] => r
  | t :: ts => confirmRun (confirmDonation t r).2 ts

/-- Number of calls in a sequence of `confirmDonation` calls that report
the success response. -/
def confirmSuccessCount (r : BloodRequest) (times : List Int) : Nat :=
  match times with
  | [] => 0
  | t :: ts =>
    (if (confirmDonation t r).1.isSuccess then 1 else 0) +
      confirmSuccessCount (confirmDonation t r).2 ts

/-- Effective batch size of a request: `request.batchSize || 1`. -/
def effectiveBatchSize (r : BloodRequest) : Nat :=
  if r.batchSize == 0 then 1 else r.batchSize

/-- State effect of `sendNextBatch` (controller, lines 10-42): guard on
terminal status and empty queue, then dequeue `batchSize` ids from the
front of the queue, append them to `notifiedDonors`, stamp `batchSentAt`
and raise `batchInProgress`.  The second component is the batch of donor
ids actually dequeued (empty on a no-op). -/
def sendNextBatch (now : Int) (r : BloodRequest) : BloodRequest × List Nat :=
  if r.status == "fulfilled" || r.status == "cancelled" || r.status == "expired" then
    (r, [])
  else if r.remainingDonorsQueue.length == 0 then
    (r, [])
  else
    let batchSize := effectiveBatchSize r
    let nextBatchIds := r.remainingDonorsQueue.take batchSize
    ({ r with
        remainingDonorsQueue := r.remainingDonorsQueue.drop batchSize,
        notifiedDonors := r.notifiedDonors ++ nextBatchIds,
        batchSentAt := some now,
        batchInProgress := true },
     nextBatchIds)

/-- The stored state written by a successful `sendNextBatch` dequeue
(lines 29-39 of the dispatcher): queue advanced, batch appended to the
notified list, `batchSentAt` stamped, `batchInProgress` raised. -/
def afterBatch (now : Int) (r : BloodRequest) : BloodRequest :=
  { r with
    remainingDonorsQueue := r.remainingDonorsQueue.drop (effectiveBatchSize r),
    notifiedDonors := r.notifiedDonors ++ r.remainingDonorsQueue.take (effectiveBatchSize r),
    batchSentAt := some now,
    batchInProgress := true }

/-- `sendNextBatch` including the `findById` lookup: an unknown id
(`none`) returns immediately. -/
def sendNextBatchOpt (now : Int) (ro : Option BloodRequest) :
    Option BloodRequest × List Nat :=
  match ro with
  | none => (none, [])
  | some r => (some (sendNextBatch now r).1, (sendNextBatch now r).2)

/-- Response of the public read `getBloodRequestById`. -/
inductive ReadResponse where
  | notFound (message : String)
  | closed (message : String)
  | details (r : BloodRequest)
deriving Repr, DecidableEq

/-- `getBloodRequestById` (controller, lines 201-238): lazily promotes an
`active` request to `fulfilled`/`expired`, then returns the generic closed
response whenever the request is not active, full, or past its deadline;
otherwise the full details. -/
def getBloodRequestById (now : Int) (ro : Option BloodRequest) :
    ReadResponse × Option BloodRequest :=
  match ro with
  | none => (ReadResponse.notFound "Blood request not found", none)
  | some request =>
    let isExpired : Bool := request.requiredBy < now
    let isFull : Bool := request.quantity ≤ request.confirmedUnits
    let request1 : BloodRequest :=
      if request.status == "active" then
        if isFull then { request with status := "fulfilled" }
        else if isExpired then { request with status := "expired" }
        else request
      else request
    if request1.status != "active" || isFull || isExpired then
      (ReadResponse.closed "Blood request fulfilled. Thank you.", some request1)
    else
      (ReadResponse.details request1, some request1)

/-- Effective response window of a request in minutes:
`request.responseWindow || 2`. -/
def effectiveResponseWindow (r : BloodRequest) : Nat :=
  if r.responseWindow == 0 then 2 else r.responseWindow

/-- The scan filter of the scheduler in `services/emailService.js`:
`find({ status: "pending", batchInProgress: true, confirmedUnits < quantity })`. -/
def scanPredicate (r : BloodRequest) : Bool :=
  r.status == "pending" && r.batchInProgress && r.confirmedUnits < r.quantity

/-- Per-request body of one scheduler tick (`checkPendingBatches` in
`services/emailService.js`): requests not matched by the scan are
untouched; a matched request with no `batchSentAt` is skipped
(`continue`); otherwise, when the elapsed milliseconds reach
`responseWindow` minutes (default 2), `batchInProgress` is cleared,
persisted, and `sendNextBatch` is invoked.  The Bool records whether
`sendNextBatch` was invoked on this request. -/
def processPendingRequest (now : Int) (r : BloodRequest) : BloodRequest × Bool :=
  if scanPredicate r then
    match r.batchSentAt with
    | none => (r, false)
    | some sentTime =>
      let windowMinutes : Nat := effectiveResponseWindow r
      if (windowMinutes : Int) * 60000 ≤ now - sentTime then
        ((sendNextBatch now { r with batchInProgress := false }).1, true)
      else
        (r, false)
  else (r, false)

/-- One full scheduler tick over the stored requests. -/
def checkPendingBatches (now : Int) (rs : List BloodRequest) :
    List (BloodRequest × Bool) :=
  rs.map (processPendingRequest now)

/-- A donor document as read by the eligibility filter: display name,
blood group (possibly absent) and last donation date (possibly absent). -/
structure Donor where
  id : Nat
  name : String
  bloodGroup : Option String
  lastDonationDate : Option Int
deriving Repr, DecidableEq

/-- Blood-group normalization of the filter:
`replace(/\s+/g, "").toUpperCase()`. -/
def normalizeBloodGroup (s : String) : String :=
  ((s.toList.filter (fun c => !c.isWhitespace)).map Char.toUpper).asString

/-- The eligibility test of `createBloodRequest` (controller, lines
150-161): exclude donors whose last donation is more recent than the
three-months-ago cutoff, then require the normalized blood groups to be
equal (a missing donor group normalizes from the empty string). -/
def donorMatches (threeMonthsAgo : Int) (requestedGroup : String) (d : Donor) : Bool :=
  (match d.lastDonationDate with
   | some lastDonation => !(threeMonthsAgo < lastDonation)
   | none => true) &&
  (normalizeBloodGroup (d.bloodGroup.getD "") == normalizeBloodGroup requestedGroup)

/-- The sort comparator of the filter: by donor display name
(`(a.name || "").localeCompare(b.name || "")`), modelled as the string
order on names. -/
def donorNameLe (a b : Donor) : Bool := a.name ≤ b.name

/-- The ordered donor queue built by `createBloodRequest`: filter the
directory by eligibility, then a stable sort by display name. -/
def buildDonorQueue (threeMonthsAgo : Int) (requestedGroup : String)
    (allDonors : List Donor) : List Donor :=
  ((allDonors.filter (donorMatches threeMonthsAgo requestedGroup)).mergeSort donorNameLe)

/-- `createBloodRequest` (controller, lines 133-167): the fresh request
document as saved, with `status: "active"`, `confirmedUnits: 0`,
`batchSize: 1`, `responseWindow: 2`, `batchInProgress: false` and the
eligible-donor queue. -/
def createBloodRequest (threeMonthsAgo : Int) (requestedGroup : String)
    (quantity : Nat) (requiredBy : Int) (allDonors : List Donor) : BloodRequest :=
  { status := "active"
    quantity := quantity
    confirmedUnits := 0
    requiredBy := requiredBy
    batchSize := 1
    responseWindow := 2
    remainingDonorsQueue := (buildDonorQueue threeMonthsAgo requestedGroup allDonors).map Donor.id
    notifiedDonors := []
    batchSentAt := none
    batchInProgress := false }

/-- Sample active request used to instantiate the theorems: three units of
blood needed, five donors queued, deadline at timestamp 500000. -/
def sampleActive : BloodRequest :=
  { status := "active", quantity := 3, confirmedUnits := 0, requiredBy := 500000,
    batchSize := 1, responseWindow := 2, remainingDonorsQueue := [10, 11, 12, 13, 14],
    notifiedDonors := [], batchSentAt := none, batchInProgress := false }

/-- Sample fulfilled (terminal) request. -/
def sampleFulfilled : BloodRequest :=
  { sampleActive with status := "fulfilled", confirmedUnits := 3 }

/-- Sample request in the schema's in-progress state (`"pending"`), with a
batch in flight since timestamp 0. -/
def samplePending : BloodRequest :=
  { status := "pending", quantity := 2, confirmedUnits := 0, requiredBy := 900000000,
    batchSize := 1, responseWindow := 2, remainingDonorsQueue := [21, 22],
    notifiedDonors := [20], batchSentAt := some 0, batchInProgress := true }

/-- Sample scan-matched request whose `batchSentAt` was never stamped. -/
def samplePendingNoSent : BloodRequest :=
  { samplePending with batchSentAt := none }

/-- Sample request matching every condition of the claimed scheduler scan
except that its status is the controller's `"active"`, not the schema's
`"pending"`. -/
def schedulerActiveReq : BloodRequest :=
  { status := "active", quantity := 2, confirmedUnits := 0, requiredBy := 900000000,
    batchSize := 1, responseWindow := 2, remainingDonorsQueue := [31, 32],
    notifiedDonors := [30], batchSentAt := some 0, batchInProgress := true }

/-- Sample active request with three queued donors, used against the
dispatcher. -/
def dispatchReq : BloodRequest :=
  { status := "active", quantity := 3, confirmedUnits := 0, requiredBy := 900000000,
    batchSize := 1, responseWindow := 2, remainingDonorsQueue := [41, 42, 43],
    notifiedDonors := [], batchSentAt := none, batchInProgress := false }

/-- Sample donor who never donated, blood group O+. -/
def donorAsha : Donor :=
  { id := 1, name := "Asha", bloodGroup := some "O+", lastDonationDate := none }

/-- Sample donor with a spaced lowercase blood group and an old donation. -/
def donorBen : Donor :=
  { id := 2, name := "Ben", bloodGroup := some "o +", lastDonationDate := some (-100) }

/-- Sample donor with a non-matching blood group. -/
def donorChad : Donor :=
  { id := 3, name := "Chad", bloodGroup := some "A+", lastDonationDate := none }

/-- Sample donor who donated after the three-month cutoff. -/
def donorDana : Donor :=
  { id := 4, name := "Dana", bloodGroup := some "O+", lastDonationDate := some 50 }

/-- Sample donor directory. -/
def sampleDonors : List Donor := [donorDana, donorBen, donorAsha, donorChad]

/- Helper lemmas (shared). -/

/-- A flat form of `confirmDonation`, definitional from the record
projections. -/
lemma confirmDonation_eq (now : Int) (r : BloodRequest) :
    confirmDonation now r =
      if confirmPredicate now r then
        if r.quantity ≤ r.confirmedUnits + 1 then
          (ConfirmOutcome.confirmed "Donation confirmed successfully.",
            { r with confirmedUnits := r.confirmedUnits + 1, status := "fulfilled" })
        else
          (ConfirmOutcome.confirmed "Donation confirmed successfully.",
            { r with confirmedUnits := r.confirmedUnits + 1 })
      else
        (ConfirmOutcome.rejected "Blood request already fulfilled or expired.", r) := by
  simp only [confirmDonation]
  split
  · split <;> rfl
  · rfl

/-- The Bool match predicate of `confirmDonation`, as a proposition. -/
lemma confirmPredicate_iff (now : Int) (r : BloodRequest) :
    confirmPredicate now r = true ↔
      (r.status = "active" ∧ r.confirmedUnits < r.quantity ∧ now ≤ r.requiredBy) := by
  simp [confirmPredicate, and_assoc]

/-- `confirmDonation` never changes the quantity needed. -/
lemma confirmDonation_quantity (now : Int) (r : BloodRequest) :
    (confirmDonation now r).2.quantity = r.quantity := by
  rw [confirmDonation_eq]
  split
  · split <;> rfl
  · rfl

/-- `confirmDonation` never changes the deadline. -/
lemma confirmDonation_requiredBy (now : Int) (r : BloodRequest) :
    (confirmDonation now r).2.requiredBy = r.requiredBy := by
  rw [confirmDonation_eq]
  split
  · split <;> rfl
  · rfl

/-- `confirmDonation` increments the confirmed units exactly when the
predicate matches. -/
lemma confirmDonation_confirmedUnits (now : Int) (r : BloodRequest) :
    (confirmDonation now r).2.confirmedUnits =
      if confirmPredicate now r then r.confirmedUnits + 1 else r.confirmedUnits := by
  rw [confirmDonation_eq]
  split
  · split <;> simp_all
  · simp_all

/-- The success response is reported exactly when the predicate matches. -/
lemma confirmDonation_isSuccess (now : Int) (r : BloodRequest) :
    (confirmDonation now r).1.isSuccess = confirmPredicate now r := by
  rw [confirmDonation_eq]
  split
  · split <;> simp_all [ConfirmOutcome.isSuccess]
  · simp_all [ConfirmOutcome.isSuccess]

/-- A request at or above quota is frozen by `confirmDonation`. -/
lemma confirmDonation_frozen (now : Int) (r : BloodRequest)
    (h : r.quantity ≤ r.confirmedUnits) :
    confirmDonation now r =
      (ConfirmOutcome.rejected "Blood request already fulfilled or expired.", r) := by
  rw [confirmDonation_eq]
  have : confirmPredicate now r = false := by
    simp [confirmPredicate]
    intro _ hc
    omega
  simp [this]

/-- A request at or above quota stays frozen through any call sequence. -/
lemma confirmRun_frozen (times : List Int) (r : BloodRequest)
    (h : r.quantity ≤ r.confirmedUnits) :
    confirmRun r times = r := by
  induction times with
  | nil => rfl
  | cons t ts ih =>
    simp only [confirmRun, confirmDonation_frozen t r h]
    exact ih

/-- The quantity needed is invariant along a call sequence. -/
lemma confirmRun_quantity (times : List Int) (r : BloodRequest) :
    (confirmRun r times).quantity = r.quantity := by
  induction times generalizing r with
  | nil => rfl
  | cons t ts ih =>
    simp only [confirmRun]
    rw [ih, confirmDonation_quantity]

/-- Confirmed units never decrease along a call sequence. -/
lemma confirmRun_mono (times : List Int) (r : BloodRequest) :
    r.confirmedUnits ≤ (confirmRun r times).confirmedUnits := by
  induction times generalizing r with
  | nil => exact Nat.le_refl _
  | cons t ts ih =>
    simp only [confirmRun]
    refine Nat.le_trans ?_ (ih (confirmDonation t r).2)
    rw [confirmDonation_confirmedUnits]
    split <;> omega

/-- Confirmed units stay at or below quota along a call sequence. -/
lemma confirmRun_le_quantity (times : List Int) (r : BloodRequest)
    (h : r.confirmedUnits ≤ r.quantity) :
    (confirmRun r times).confirmedUnits ≤ (confirmRun r times).quantity := by
  induction times generalizing r with
  | nil => exact h
  | cons t ts ih =>
    simp only [confirmRun]
    refine ih _ ?_
    rw [confirmDonation_confirmedUnits, confirmDonation_quantity]
    by_cases hpred : confirmPredicate t r = true
    · have := (confirmPredicate_iff t r).mp hpred
      rw [if_pos hpred]
      omega
    · rw [if_neg hpred]
      exact h

/-- The number of success responses equals the net growth of the confirmed
units. -/
lemma confirmSuccessCount_eq (times : List Int) (r : BloodRequest) :
    confirmSuccessCount r times =
      (confirmRun r times).confirmedUnits - r.confirmedUnits := by
  induction times generalizing r with
  | nil => simp [confirmSuccessCount, confirmRun]
  | cons t ts ih =>
    have hmono := confirmRun_mono ts (confirmDonation t r).2
    have hstep := confirmDonation_confirmedUnits t r
    simp only [confirmSuccessCount, confirmRun, ih, confirmDonation_isSuccess]
    by_cases hpred : confirmPredicate t r = true
    · rw [if_pos hpred] at hstep
      rw [hpred, if_pos rfl]
      omega
    · rw [if_neg hpred] at hstep
      rw [Bool.not_eq_true] at hpred
      rw [hpred]
      simp only [Bool.false_eq_true, if_false]
      omega

/-- Core counting lemma: starting from an active request, a sequence of
calls all dated within the deadline drives the confirmed units to the
minimum of quota and (initial units + number of calls). -/
lemma confirmRun_count (times : List Int) (r : BloodRequest)
    (hstatus : r.status = "active") (hle : r.confirmedUnits ≤ r.quantity)
    (htimes : ∀ t ∈ times, t ≤ r.requiredBy) :
    (confirmRun r times).confirmedUnits =
      min (r.confirmedUnits + times.length) r.quantity := by
  induction times generalizing r with
  | nil =>
    simp only [confirmRun, List.length_nil, Nat.add_zero]
    omega
  | cons t ts ih =>
    have hrun : confirmRun r (t :: ts) = confirmRun (confirmDonation t r).2 ts := rfl
    by_cases hc : r.confirmedUnits < r.quantity
    · have hpred : confirmPredicate t r = true :=
        (confirmPredicate_iff t r).mpr ⟨hstatus, hc, htimes t (List.mem_cons_self t ts)⟩
      by_cases hful : r.quantity ≤ r.confirmedUnits + 1
      · have h1 : confirmDonation t r =
            (ConfirmOutcome.confirmed "Donation confirmed successfully.",
              { r with confirmedUnits := r.confirmedUnits + 1, status := "fulfilled" }) := by
          rw [confirmDonation_eq, if_pos hpred, if_pos hful]
        rw [hrun, h1]
        dsimp only
        rw [confirmRun_frozen ts { r with confirmedUnits := r.confirmedUnits + 1, status := "fulfilled" } hful]
        show r.confirmedUnits + 1 = min (r.confirmedUnits + (ts.length + 1)) r.quantity
        omega
      · have h1 : confirmDonation t r =
            (ConfirmOutcome.confirmed "Donation confirmed successfully.",
              { r with confirmedUnits := r.confirmedUnits + 1 }) := by
          rw [confirmDonation_eq, if_pos hpred, if_neg hful]
        rw [hrun, h1]
        dsimp only
        rw [ih { r with confirmedUnits := r.confirmedUnits + 1 } hstatus hc
          (fun u hu => htimes u (List.mem_cons_of_mem t hu))]
        show min (r.confirmedUnits + 1 + ts.length) r.quantity =
          min (r.confirmedUnits + (ts.length + 1)) r.quantity
        omega
    · rw [hrun, confirmDonation_frozen t r (by omega), confirmRun_frozen ts r (by omega)]
      show r.confirmedUnits = min (r.confirmedUnits + (ts.length + 1)) r.quantity
      omega

/-- C1: `confirmDonation` increments `confirmedUnits` by exactly 1 if and
only if, at the moment of the update, status = active, confirmedUnits <
quantity and requiredBy ≥ now, as one conditional read-modify-write; when
the predicate does not hold it reports the domain error "Blood request
already fulfilled or expired." and leaves the request unchanged; a
successful increment reaching the quota flips status to fulfilled. -/
theorem confirmDonation_conditional_increment (now : Int) (r : BloodRequest) :
    ((confirmDonation now r).2.confirmedUnits = r.confirmedUnits + 1 ↔
      (r.status = "active" ∧ r.confirmedUnits < r.quantity ∧ now ≤ r.requiredBy)) ∧
    (¬ (r.status = "active" ∧ r.confirmedUnits < r.quantity ∧ now ≤ r.requiredBy) →
      confirmDonation now r =
        (ConfirmOutcome.rejected "Blood request already fulfilled or expired.", r)) ∧
    ((r.status = "active" ∧ r.confirmedUnits < r.quantity ∧ now ≤ r.requiredBy) →
      (confirmDonation now r).1 =
        ConfirmOutcome.confirmed "Donation confirmed successfully." ∧
      ((confirmDonation now r).2.status = "fulfilled" ↔
        r.quantity ≤ r.confirmedUnits + 1)) := by
  by_cases hpred : confirmPredicate now r = true
  · have hprop := (confirmPredicate_iff now r).mp hpred
    refine ⟨?_, fun hcon => absurd hprop hcon, fun _ => ?_⟩
    · rw [confirmDonation_confirmedUnits, if_pos hpred]
      simp [hprop]
    · constructor
      · rw [confirmDonation_eq, if_pos hpred]
        split <;> rfl
      · rw [confirmDonation_eq, if_pos hpred]
        by_cases hful : r.quantity ≤ r.confirmedUnits + 1
        · rw [if_pos hful]
          simpa using hful
        · rw [if_neg hful]
          dsimp only
          rw [hprop.1]
          simp only [String.reduceEq, false_iff]
          exact hful
  · have hprop : ¬ (r.status = "active" ∧ r.confirmedUnits < r.quantity ∧ now ≤ r.requiredBy) :=
      fun hc => hpred ((confirmPredicate_iff now r).mpr hc)
    refine ⟨?_, fun _ => ?_, fun hc => absurd hc hprop⟩
    · rw [confirmDonation_confirmedUnits, if_neg hpred]
      simp [hprop]
    · rw [confirmDonation_eq, if_neg hpred]

/-- Witness for C1 at a concrete active request. -/
theorem confirmDonation_conditional_increment_witness :
    (confirmDonation 0 sampleActive).2.confirmedUnits = sampleActive.confirmedUnits + 1 :=
  (confirmDonation_conditional_increment 0 sampleActive).1.mpr
    ⟨rfl, by decide, by decide⟩

/-- C2: starting from a fresh active request with quota Q, any sequence of
N `confirmDonation` calls dated within the deadline ends with
confirmedUnits = min N Q, exactly min N Q (hence at most Q) of the calls
report success, and after every prefix of the sequence the invariant
confirmedUnits ≤ quantity holds with confirmedUnits non-decreasing. -/
theorem confirmDonation_no_overbooking (r : BloodRequest) (times : List Int)
    (hstatus : r.status = "active") (hzero : r.confirmedUnits = 0)
    (htimes : ∀ t ∈ times, t ≤ r.requiredBy) :
    (confirmRun r times).confirmedUnits = min times.length r.quantity ∧
    confirmSuccessCount r times = min times.length r.quantity ∧
    confirmSuccessCount r times ≤ r.quantity ∧
    (∀ k, (confirmRun r (times.take k)).confirmedUnits ≤ r.quantity) ∧
    (∀ k, (confirmRun r (times.take k)).confirmedUnits ≤
      (confirmRun r (times.take (k + 1))).confirmedUnits) := by
  have hcount : ∀ k, (confirmRun r (times.take k)).confirmedUnits =
      min (times.take k).length r.quantity := by
    intro k
    have := confirmRun_count (times.take k) r hstatus (by omega)
      (fun u hu => htimes u (List.take_subset k times hu))
    rwa [hzero, Nat.zero_add] at this
  have hfull : (confirmRun r times).confirmedUnits = min times.length r.quantity := by
    have := confirmRun_count times r hstatus (by omega) htimes
    rwa [hzero, Nat.zero_add] at this
  refine ⟨hfull, ?_, ?_, ?_, ?_⟩
  · rw [confirmSuccessCount_eq, hfull, hzero]
    omega
  · rw [confirmSuccessCount_eq, hfull, hzero]
    omega
  · intro k
    rw [hcount k]
    omega
  · intro k
    rw [hcount k, hcount (k + 1)]
    have h1 : (times.take k).length ≤ (times.take (k + 1)).length := by
      simp only [List.length_take]
      omega
    omega

/-- Witness for C2: four calls against a quota of three. -/
theorem confirmDonation_no_overbooking_witness :
    (confirmRun sampleActive [0, 1, 2, 3]).confirmedUnits =
      min ([0, 1, 2, 3] : List Int).length sampleActive.quantity :=
  (confirmDonation_no_overbooking sampleActive [0, 1, 2, 3] rfl rfl (by decide)).1

/-- C3 (code bug): the Mongoose schema declares the status enum as
pending/fulfilled/cancelled with default "pending", while the controller
creates requests with status "active" (and elsewhere writes "expired"):
the claimed status set {active, fulfilled, expired, cancelled} and initial
value "active" contradict the schema's own enum. -/
theorem statusEnum_contradicts_lifecycle :
    statusDefaultValue = "pending" ∧
    statusDefaultValue ∉ (["active", "fulfilled", "expired", "cancelled"] : List String) ∧
    (createBloodRequest 0 "O+" 1 100 []).status = "active" ∧
    (createBloodRequest 0 "O+" 1 100 []).status ∉ statusEnumValues ∧
    "expired" ∉ statusEnumValues := by
  refine ⟨rfl, by decide, rfl, ?_, by decide⟩
  show "active" ∉ statusEnumValues
  decide


/-- On an empty queue the dispatcher returns without touching the request. -/
lemma sendNextBatch_noop_empty (now : Int) (r : BloodRequest)
    (hq : r.remainingDonorsQueue = []) :
    sendNextBatch now r = (r, []) := by
  rw [sendNextBatch]
  split
  · rfl
  · rw [if_pos (by simp [hq])]

/-- On a non-terminal request with a nonempty queue, the dispatcher
dequeues the head batch and stores `afterBatch`. -/
lemma sendNextBatch_send (now : Int) (r : BloodRequest)
    (hterm : (r.status == "fulfilled" || r.status == "cancelled" ||
      r.status == "expired") = false)
    (hq : r.remainingDonorsQueue ≠ []) :
    sendNextBatch now r =
      (afterBatch now r, r.remainingDonorsQueue.take (effectiveBatchSize r)) := by
  rw [sendNextBatch, hterm]
  simp only [Bool.false_eq_true, if_false]
  rw [if_neg (by simp only [beq_iff_eq, List.length_eq_zero]; exact hq)]
  rfl

/-- A successful dequeue always changes the stored request (the notified
list strictly grows). -/
lemma afterBatch_ne (now : Int) (r : BloodRequest)
    (hq : r.remainingDonorsQueue ≠ []) :
    afterBatch now r ≠ r := by
  intro hcontra
  have hn := congrArg BloodRequest.notifiedDonors hcontra
  dsimp only [afterBatch] at hn
  have hlen := congrArg List.length hn
  rw [List.length_append, List.length_take] at hlen
  have hb : effectiveBatchSize r ≠ 0 := by
    unfold effectiveBatchSize
    split
    · exact one_ne_zero
    · rename_i h
      simpa using h
  have hql : r.remainingDonorsQueue.length ≠ 0 := by
    simpa [List.length_eq_zero] using hq
  omega

/-- C4 counterexample: on an active request with three donors still
queued, two immediate `sendNextBatch` calls (1 ms apart, far inside the
2-minute response window, with no confirmation in between) each dequeue a
batch: the second call dequeues donor 42 and changes the stored request,
so two batches are dequeued in total and the second call is not a no-op. -/
theorem sendNextBatch_not_idempotent :
    (sendNextBatch 0 dispatchReq).2 = [41] ∧
    (sendNextBatch 1 (sendNextBatch 0 dispatchReq).1).2 = [42] ∧
    (sendNextBatch 1 (sendNextBatch 0 dispatchReq).1).1 ≠ (sendNextBatch 0 dispatchReq).1 ∧
    (sendNextBatch 1 (sendNextBatch 0 dispatchReq).1).1.notifiedDonors = [41, 42] := by
  decide

/-- C4 amended: `sendNextBatch` has no `batchInProgress` guard; on an
active request every call dequeues the next `batchSize` donors while the
queue is nonempty, so a second immediate call advances the queue again,
and the second call leaves the state unchanged exactly when the first call
drained the queue (the empty-delta case). -/
theorem sendNextBatch_twice (now1 now2 : Int) (r : BloodRequest)
    (hactive : r.status = "active") :
    (r.remainingDonorsQueue = [] →
      (sendNextBatch now2 (sendNextBatch now1 r).1).1 = r) ∧
    (r.remainingDonorsQueue ≠ [] →
      (sendNextBatch now1 r).2 = r.remainingDonorsQueue.take (effectiveBatchSize r) ∧
      (sendNextBatch now2 (sendNextBatch now1 r).1).2 =
        (r.remainingDonorsQueue.drop (effectiveBatchSize r)).take (effectiveBatchSize r) ∧
      (sendNextBatch now2 (sendNextBatch now1 r).1).1.notifiedDonors =
        r.notifiedDonors ++ r.remainingDonorsQueue.take (effectiveBatchSize r) ++
          (r.remainingDonorsQueue.drop (effectiveBatchSize r)).take (effectiveBatchSize r) ∧
      ((sendNextBatch now2 (sendNextBatch now1 r).1).1 = (sendNextBatch now1 r).1 ↔
        r.remainingDonorsQueue.drop (effectiveBatchSize r) = [])) := by
  have hterm : (r.status == "fulfilled" || r.status == "cancelled" ||
      r.status == "expired") = false := by
    rw [hactive]
    rfl
  constructor
  · intro hq
    rw [sendNextBatch_noop_empty now1 r hq]
    rw [show ((r, ([] : List Nat)).1) = r from rfl]
    rw [sendNextBatch_noop_empty now2 r hq]
  · intro hq
    rw [sendNextBatch_send now1 r hterm hq]
    dsimp only
    refine ⟨rfl, ?_⟩
    by_cases hrest : r.remainingDonorsQueue.drop (effectiveBatchSize r) = []
    · rw [sendNextBatch_noop_empty now2 (afterBatch now1 r) hrest]
      refine ⟨by simp [hrest], ?_, by simp [hrest]⟩
      show (afterBatch now1 r).notifiedDonors = _
      simp [afterBatch, hrest]
    · rw [sendNextBatch_send now2 (afterBatch now1 r) hterm hrest]
      dsimp only
      refine ⟨rfl, rfl, ?_⟩
      constructor
      · intro hcontra
        exact absurd hcontra (afterBatch_ne now2 (afterBatch now1 r) hrest)
      · intro h
        exact absurd h hrest

/-- Witness for the amended C4 at a concrete active request. -/
theorem sendNextBatch_twice_witness :
    (sendNextBatch 0 dispatchReq).2 =
      dispatchReq.remainingDonorsQueue.take (effectiveBatchSize dispatchReq) :=
  ((sendNextBatch_twice 0 1 dispatchReq rfl).2 (by decide)).1

/-- C5 counterexample: a request satisfying every condition of the claimed
scan (status "active", batchInProgress, under quota, batch sent long past
its 2-minute window) is left entirely unchanged by the scheduler tick and
`sendNextBatch` is never invoked on it, because the scan of
`checkPendingBatches` matches status "pending", not "active". -/
theorem scheduler_ignores_active_requests :
    (schedulerActiveReq.status = "active" ∧
     schedulerActiveReq.batchInProgress = true ∧
     schedulerActiveReq.confirmedUnits < schedulerActiveReq.quantity ∧
     schedulerActiveReq.batchSentAt = some 0 ∧
     (effectiveResponseWindow schedulerActiveReq : Int) * 60000 ≤ 200000 - 0) ∧
    checkPendingBatches 200000 [schedulerActiveReq] = [(schedulerActiveReq, false)] ∧
    processPendingRequest 200000 schedulerActiveReq = (schedulerActiveReq, false) := by
  decide

/-- C5 amended: each scheduler tick processes exactly the requests with
status "pending", batchInProgress = true and confirmedUnits < quantity;
for each of those with a stamped batchSentAt whose elapsed time reaches
responseWindow minutes (default 2), it clears batchInProgress, persists,
and invokes sendNextBatch on the persisted state; every other request is
left unchanged with no dispatch. -/
theorem scheduler_tick_spec (now : Int) (rs : List BloodRequest) (r : BloodRequest) :
    checkPendingBatches now rs = rs.map (processPendingRequest now) ∧
    (¬ (r.status = "pending" ∧ r.batchInProgress = true ∧ r.confirmedUnits < r.quantity) →
      processPendingRequest now r = (r, false)) ∧
    (r.status = "pending" → r.batchInProgress = true → r.confirmedUnits < r.quantity →
      (r.batchSentAt = none → processPendingRequest now r = (r, false)) ∧
      (∀ sentTime, r.batchSentAt = some sentTime →
        ((effectiveResponseWindow r : Int) * 60000 ≤ now - sentTime →
          processPendingRequest now r =
            ((sendNextBatch now { r with batchInProgress := false }).1, true)) ∧
        (now - sentTime < (effectiveResponseWindow r : Int) * 60000 →
          processPendingRequest now r = (r, false)))) := by
  have hscan : scanPredicate r = true ↔
      (r.status = "pending" ∧ r.batchInProgress = true ∧ r.confirmedUnits < r.quantity) := by
    simp [scanPredicate, and_assoc]
  refine ⟨rfl, ?_, ?_⟩
  · intro hnot
    have hfalse : ¬ scanPredicate r = true := fun hc => hnot (hscan.mp hc)
    rw [processPendingRequest, if_neg hfalse]
  · intro h1 h2 h3
    have htrue : scanPredicate r = true := hscan.mpr ⟨h1, h2, h3⟩
    constructor
    · intro hnone
      rw [processPendingRequest, if_pos htrue, hnone]
    · intro sentTime hsome
      constructor
      · intro helapsed
        rw [processPendingRequest, if_pos htrue, hsome]
        dsimp only
        rw [if_pos helapsed]
      · intro hearly
        rw [processPendingRequest, if_pos htrue, hsome]
        dsimp only
        rw [if_neg (by omega)]

/-- Witness for the amended C5: an overdue pending request is advanced. -/
theorem scheduler_tick_spec_witness :
    processPendingRequest 200000 samplePending =
      ((sendNextBatch 200000 { samplePending with batchInProgress := false }).1, true) :=
  ((((scheduler_tick_spec 200000 [] samplePending).2.2 rfl rfl (by decide)).2
    0 rfl).1) (by decide)

/-- C7: `sendNextBatch` is a no-op, with no state change and no batch
dequeued, whenever the request is not found, its status is fulfilled,
cancelled or expired, or its donor queue is empty. -/
theorem sendNextBatch_noop_guard (now : Int) (r : BloodRequest)
    (h : r.status = "fulfilled" ∨ r.status = "cancelled" ∨ r.status = "expired" ∨
      r.remainingDonorsQueue = []) :
    sendNextBatch now r = (r, []) ∧ sendNextBatchOpt now none = (none, []) := by
  refine ⟨?_, rfl⟩
  rcases h with h | h | h | h
  · rw [sendNextBatch]
    rw [if_pos (by rw [h]; rfl)]
  · rw [sendNextBatch]
    rw [if_pos (by rw [h]; rfl)]
  · rw [sendNextBatch]
    rw [if_pos (by rw [h]; rfl)]
  · exact sendNextBatch_noop_empty now r h

/-- Witness for C7 at a fulfilled request. -/
theorem sendNextBatch_noop_guard_witness :
    sendNextBatch 0 sampleFulfilled = (sampleFulfilled, []) :=
  (sendNextBatch_noop_guard 0 sampleFulfilled (Or.inl rfl)).1

/-- The multiset of tracked donor ids is preserved by a dequeue. -/
lemma nodup_drop_append_take (b : Nat) (q n : List Nat)
    (hnd : (q ++ n).Nodup) : (q.drop b ++ (n ++ q.take b)).Nodup := by
  have h1 : List.Perm (q.drop b ++ (n ++ q.take b)) (q.drop b ++ q.take b ++ n) := by
    rw [List.append_assoc]
    exact List.Perm.append_left _ List.perm_append_comm
  have h2 : List.Perm (q.drop b ++ q.take b ++ n) (q ++ n) :=
    (List.Perm.append_right n List.perm_append_comm).trans
      (by rw [List.take_append_drop])
  exact ((h1.trans h2).symm).nodup hnd

/-- C8: `sendNextBatch` dequeues up to batchSize ids from the front of the
queue in FIFO order and appends exactly those ids to the end of the
notified list; assuming the queue and the notified list are jointly
duplicate-free, after the operation they stay duplicate-free and disjoint
and their combined size is unchanged (so it never exceeds the original
eligible-donor count). -/
theorem sendNextBatch_queue_partition (now : Int) (r : BloodRequest)
    (hnd : (r.remainingDonorsQueue ++ r.notifiedDonors).Nodup) :
    (sendNextBatch now r).2.length ≤ effectiveBatchSize r ∧
    ((sendNextBatch now r).1.remainingDonorsQueue.length +
      (sendNextBatch now r).1.notifiedDonors.length =
      r.remainingDonorsQueue.length + r.notifiedDonors.length) ∧
    ((sendNextBatch now r).1.remainingDonorsQueue ++
      (sendNextBatch now r).1.notifiedDonors).Nodup ∧
    (∀ x, x ∈ (sendNextBatch now r).1.remainingDonorsQueue →
      x ∉ (sendNextBatch now r).1.notifiedDonors) ∧
    ((sendNextBatch now r).2 ≠ [] →
      (sendNextBatch now r).2 = r.remainingDonorsQueue.take (effectiveBatchSize r) ∧
      (sendNextBatch now r).1.remainingDonorsQueue =
        r.remainingDonorsQueue.drop (effectiveBatchSize r) ∧
      (sendNextBatch now r).1.notifiedDonors =
        r.notifiedDonors ++ (sendNextBatch now r).2) := by
  by_cases hterm : (r.status == "fulfilled" || r.status == "cancelled" ||
      r.status == "expired") = true
  · have hnoop : sendNextBatch now r = (r, []) := by
      rw [sendNextBatch, if_pos hterm]
    rw [hnoop]
    exact ⟨by simp, rfl, hnd, fun x hx hmem => (List.nodup_append.mp hnd).2.2 hx hmem,
      by simp⟩
  · by_cases hq : r.remainingDonorsQueue = []
    · have hnoop := sendNextBatch_noop_empty now r hq
      rw [hnoop]
      exact ⟨by simp, rfl, hnd, fun x hx hmem => (List.nodup_append.mp hnd).2.2 hx hmem,
        by simp⟩
    · have hsend := sendNextBatch_send now r (by rwa [Bool.not_eq_true] at hterm) hq
      rw [hsend]
      dsimp only [afterBatch]
      refine ⟨?_, ?_, ?_, ?_, fun _ => ⟨rfl, rfl, rfl⟩⟩
      · rw [List.length_take]
        omega
      · rw [List.length_drop, List.length_append, List.length_take]
        have := List.length_take (effectiveBatchSize r) r.remainingDonorsQueue
        omega
      · exact nodup_drop_append_take _ _ _ hnd
      · intro x hx hmem
        exact (List.nodup_append.mp
          (nodup_drop_append_take (effectiveBatchSize r) _ _ hnd)).2.2 hx hmem

/-- Witness for C8 at a concrete active request. -/
theorem sendNextBatch_queue_partition_witness :
    ((sendNextBatch 0 sampleActive).1.remainingDonorsQueue ++
      (sendNextBatch 0 sampleActive).1.notifiedDonors).Nodup :=
  (sendNextBatch_queue_partition 0 sampleActive (by decide)).2.2.1

/-- C9: once a request's status is terminal (fulfilled, expired or
cancelled), the public read leaves the stored request untouched and
returns the generic closed response instead of the request's details,
`confirmDonation` always fails with the already-closed domain error and
changes nothing, and neither the dispatcher nor the scheduler ever touches
the request again. -/
theorem terminal_status_sticky (now : Int) (r : BloodRequest)
    (h : r.status = "fulfilled" ∨ r.status = "expired" ∨ r.status = "cancelled") :
    getBloodRequestById now (some r) =
      (ReadResponse.closed "Blood request fulfilled. Thank you.", some r) ∧
    confirmDonation now r =
      (ConfirmOutcome.rejected "Blood request already fulfilled or expired.", r) ∧
    sendNextBatch now r = (r, []) ∧
    processPendingRequest now r = (r, false) := by
  have hbeq : (r.status == "active") = false := by
    rcases h with h | h | h <;> rw [h] <;> rfl
  have hpend : (r.status == "pending") = false := by
    rcases h with h | h | h <;> rw [h] <;> rfl
  have hne : r.status ≠ "active" := by
    rcases h with h | h | h <;> rw [h] <;> decide
  refine ⟨?_, ?_, ?_, ?_⟩
  · simp [getBloodRequestById, hbeq, hne]
  · rw [confirmDonation_eq]
    rw [if_neg (by simp [confirmPredicate, hbeq])]
  · rcases h with h | h | h <;> rw [sendNextBatch] <;> rw [if_pos (by rw [h]; rfl)]
  · rw [processPendingRequest, if_neg (by simp [scanPredicate, hpend])]

/-- Witness for C9 at a fulfilled request. -/
theorem terminal_status_sticky_witness :
    confirmDonation 0 sampleFulfilled =
      (ConfirmOutcome.rejected "Blood request already fulfilled or expired.",
        sampleFulfilled) :=
  (terminal_status_sticky 0 sampleFulfilled (Or.inl rfl)).2.1

/-- C10: a request matched by the scheduler scan whose `batchSentAt` was
never stamped is skipped by the tick: the stored request is unchanged and
`sendNextBatch` is never invoked on it, so such a request is never
advanced to its next batch by the scheduler. -/
theorem scheduler_skips_unset_batchSentAt (now : Int) (r : BloodRequest)
    (hscan : scanPredicate r = true) (hnone : r.batchSentAt = none) :
    processPendingRequest now r = (r, false) ∧
    checkPendingBatches now [r] = [(r, false)] := by
  have h1 : processPendingRequest now r = (r, false) := by
    rw [processPendingRequest, if_pos hscan, hnone]
  exact ⟨h1, by simp [checkPendingBatches, h1]⟩

/-- Witness for C10 at a scan-matched request with no batch timestamp. -/
theorem scheduler_skips_unset_batchSentAt_witness :
    processPendingRequest 0 samplePendingNoSent = (samplePendingNoSent, false) :=
  (scheduler_skips_unset_batchSentAt 0 samplePendingNoSent (by decide) rfl).1

/-- The donor-name comparator is transitive. -/
lemma donorNameLe_trans : ∀ (a b c : Donor),
    donorNameLe a b → donorNameLe b c → donorNameLe a c := by
  intro a b c hab hbc
  simp only [donorNameLe, decide_eq_true_eq] at hab hbc ⊢
  exact le_trans hab hbc

/-- The donor-name comparator is total. -/
lemma donorNameLe_total : ∀ (a b : Donor), donorNameLe a b || donorNameLe b a := by
  intro a b
  simp only [donorNameLe, Bool.or_eq_true, decide_eq_true_eq]
  exact le_total a.name b.name

/-- The eligibility test, as a proposition. -/
lemma donorMatches_iff (threeMonthsAgo : Int) (g : String) (d : Donor) :
    donorMatches threeMonthsAgo g d = true ↔
      (normalizeBloodGroup (d.bloodGroup.getD "") = normalizeBloodGroup g ∧
       ∀ lastDonation, d.lastDonationDate = some lastDonation →
         lastDonation ≤ threeMonthsAgo) := by
  cases hld : d.lastDonationDate with
  | none => simp [donorMatches, hld]
  | some l => simp [donorMatches, hld, not_lt, and_comm]

/-- C6: the donor queue built at request creation contains a donor exactly
when the normalized blood groups agree and the donor either never donated
or donated at least three months before the cutoff; the queue is ordered
by donor display name, and donors with equal names keep their original
relative (insertion) order. -/
theorem eligibility_filter_spec (threeMonthsAgo : Int) (requestedGroup : String)
    (allDonors : List Donor) :
    (∀ d, d ∈ buildDonorQueue threeMonthsAgo requestedGroup allDonors ↔
      (d ∈ allDonors ∧
       normalizeBloodGroup (d.bloodGroup.getD "") = normalizeBloodGroup requestedGroup ∧
       ∀ lastDonation, d.lastDonationDate = some lastDonation →
         lastDonation ≤ threeMonthsAgo)) ∧
    (buildDonorQueue threeMonthsAgo requestedGroup allDonors).Pairwise
      (fun a b => a.name ≤ b.name) ∧
    (∀ s, (buildDonorQueue threeMonthsAgo requestedGroup allDonors).filter
        (fun d => d.name == s) =
      (allDonors.filter (donorMatches threeMonthsAgo requestedGroup)).filter
        (fun d => d.name == s)) := by
  refine ⟨?_, ?_, ?_⟩
  · intro d
    rw [buildDonorQueue, List.mem_mergeSort, List.mem_filter, donorMatches_iff]
  · rw [buildDonorQueue]
    refine List.Pairwise.imp ?_
      (List.sorted_mergeSort donorNameLe_trans donorNameLe_total
        (allDonors.filter (donorMatches threeMonthsAgo requestedGroup)))
    intro a b hab
    simpa [donorNameLe] using hab
  · intro s
    rw [buildDonorQueue]
    have hpair : List.Pairwise (fun a b => donorNameLe a b = true)
        ((allDonors.filter (donorMatches threeMonthsAgo requestedGroup)).filter
          (fun d => d.name == s)) := by
      apply List.pairwise_of_forall_mem_list
      intro a ha b hb
      have ha2 : a.name = s := by simpa using (List.mem_filter.mp ha).2
      have hb2 : b.name = s := by simpa using (List.mem_filter.mp hb).2
      simp [donorNameLe, ha2, hb2]
    have hsub : List.Sublist
        ((allDonors.filter (donorMatches threeMonthsAgo requestedGroup)).filter
          (fun d => d.name == s))
        ((allDonors.filter (donorMatches threeMonthsAgo requestedGroup)).mergeSort
          donorNameLe) :=
      List.sublist_mergeSort donorNameLe_trans donorNameLe_total hpair
        (List.filter_sublist _)
    have hidem : (((allDonors.filter (donorMatches threeMonthsAgo requestedGroup)).filter
        (fun d => d.name == s)).filter (fun d => d.name == s)) =
        ((allDonors.filter (donorMatches threeMonthsAgo requestedGroup)).filter
          (fun d => d.name == s)) :=
      List.filter_eq_self.mpr (fun a ha => (List.mem_filter.mp ha).2)
    have hsub2 := hsub.filter (fun d => d.name == s)
    rw [hidem] at hsub2
    have hperm := (List.mergeSort_perm
      (allDonors.filter (donorMatches threeMonthsAgo requestedGroup))
      donorNameLe).filter (fun d => d.name == s)
    exact (List.Sublist.eq_of_length hsub2 hperm.length_eq.symm).symm

/-- Witness for C6: the never-donated matching donor is selected. -/
theorem eligibility_filter_spec_witness :
    donorAsha ∈ buildDonorQueue 0 "O+" sampleDonors :=
  ((eligibility_filter_spec 0 "O+" sampleDonors).1 donorAsha).mpr
    ⟨by decide, by decide, by decide⟩
